import Mathlib

/-!
Verification of the GPG output-parsing and command-orchestration layer of the
yubikey-manager repository.

The Go source is embedded shallowly:
* strings are modelled as `String` / `List Char` (all inputs of interest are
  ASCII, so the Go byte indexing coincides with character indexing);
* the Go standard-library string helpers used by the source
  (`strings.TrimSpace`, `strings.Fields`, `strings.Split`, `strings.SplitN`,
  `strings.Index`, `strings.Contains`, `strings.HasPrefix`, `strings.Join`)
  are re-defined here on `List Char` with the Go semantics;
* the one regular expression of the source (`parseKeyLine`) is translated into
  an equivalent deterministic matcher (the pattern is anchored and each of its
  quantified pieces is forced, see the comments at `matchKeyLine`);
* fallible operations return `Except`/`Option`, and the command-orchestration
  functions are parameterised by a record of service responses while recording
  the calls they perform.
-/

set_option maxRecDepth 20000

namespace YkMgr

/-- Go `unicode.IsSpace` restricted to the characters that can occur in the
ASCII output handled by this program (space, TAB, LF, VT, FF, CR). -/
def isGoSpace (c : Char) : Bool :=
  c = ' ' || c = '\t' || c = '\n' || c = Char.ofNat 11 || c = Char.ofNat 12 || c = '\r'

/-- Negation of `isGoSpace`, i.e. the regex class `\S`. -/
def nonSpace (c : Char) : Bool := !isGoSpace c

/-- Go `strings.Contains` on character lists. -/
def listContains : List Char → List Char → Bool
  | [], pat => pat.isEmpty
  | s@(_ :: rest), pat => pat.isPrefixOf s || listContains rest pat

/-- Go `strings.Contains` on strings. -/
def strContains (s pat : String) : Bool := listContains s.data pat.data

/-- Go `strings.Index` (index of the first occurrence, `none` for the Go result -1). -/
def findSubIdx : List Char → List Char → Option Nat
  | [], pat => if pat.isEmpty then some 0 else none
  | s@(_ :: rest), pat =>
    if pat.isPrefixOf s then some 0 else (findSubIdx rest pat).map (· + 1)

/-- Go `strings.Split` with a one-character separator. -/
def splitOnChar (sep : Char) : List Char → List (List Char)
  | [] => [[]]
  | c :: rest =>
    if c = sep then [] :: splitOnChar sep rest
    else
      match splitOnChar sep rest with
      | [] => [[c]]
      | h :: t => (c :: h) :: t

/-- Split at every whitespace character (empty pieces kept). -/
def splitAtWS : List Char → List (List Char)
  | [] => [[]]
  | c :: rest =>
    if isGoSpace c then [] :: splitAtWS rest
    else
      match splitAtWS rest with
      | [] => [[c]]
      | h :: t => (c :: h) :: t

/-- Go `strings.Fields`: maximal runs of non-whitespace characters. -/
def goFields (cs : List Char) : List (List Char) :=
  (splitAtWS cs).filter (fun l => l ≠ [])

/-- Go `strings.TrimSpace` on character lists. -/
def trimChars (cs : List Char) : List Char :=
  ((cs.dropWhile isGoSpace).reverse.dropWhile isGoSpace).reverse

/-- Go `strings.TrimSpace` on strings. -/
def strTrim (s : String) : String := String.mk (trimChars s.data)

/-- Go `strings.Join(parts, " ")` on character lists. -/
def joinSpace (ls : List (List Char)) : List Char := List.intercalate [' '] ls

/-- Go `strings.SplitN(s, ":", 2)`: `none` when no colon occurs (Go then
returns the one-element slice), otherwise the parts left and right of the
first colon. -/
def splitN2Colon (cs : List Char) : Option (List Char × List Char) :=
  let l := cs.takeWhile (fun c => c ≠ ':')
  if l.length = cs.length then none else some (l, cs.drop (l.length + 1))

/-- Go `strings.HasSuffix` on strings. -/
def strEndsWith (s pat : String) : Bool := pat.data.isSuffixOf s.data

/-! ## The data model of package `gpg` -/

/-- `gpg.Key` — one record of a secret-key listing (gpg.go). -/
structure Key where
  type : String
  keyID : String
  fingerprint : String
  capabilities : List String
  expires : String
  cardNo : String
deriving DecidableEq

/-- The zero value `Key{}` of the Go struct. -/
def emptyKey : Key := ⟨"", "", "", [], "", ""⟩

/-- `gpg.CardInfo` — card-status snapshot (gpg.go); the Go map is modelled as
an association list where the most recent insertion is in front (lookup
therefore agrees with the last-write-wins semantics of the Go map). -/
structure CardInfo where
  serial : String
  cardholder : String
  keys : List (String × String)
deriving DecidableEq

/-- The fresh `CardInfo` allocated at the top of `parseCardStatus`. -/
def emptyCardInfo : CardInfo := ⟨"", "", []⟩

/-! ## parseCapabilities -/

/-- The `switch` of `parseCapabilities`: the four recognized capability
letters map to their flags, everything else is dropped. -/
def capChar (c : Char) : Option String :=
  if c = 'S' then some "S"
  else if c = 'E' then some "E"
  else if c = 'A' then some "A"
  else if c = 'C' then some "C"
  else none

/-- `gpg.parseCapabilities` on character lists (the Go loop appends the
recognized flags in input order). -/
def parseCapsChars (cs : List Char) : List String := cs.filterMap capChar

/-- `gpg.parseCapabilities`. -/
def parseCapabilities (s : String) : List String := parseCapsChars s.data

/-! ## parseKeyLine

The source matches a line against the anchored regular expression

  `^(sec|ssb)\s+(\S+)/(\S+)\s+(\S+)\s+\[([^\]]+)\](?:\s+\[expires:\s+([^\]]+)\])?`

Each quantified piece of this pattern is forced, so the regex is equivalent to
the deterministic matcher below:
* the alternatives `sec`/`ssb` differ in their second character, so at most
  one can start the line;
* every `\s+` is followed by a piece that cannot start with whitespace, and
  every `\S+` by a piece that cannot start with non-whitespace, so each of
  these takes exactly the maximal run;
* inside the maximal non-whitespace run covered by `(\S+)/(\S+)`, the first
  group is greedy, so the separating `/` is the rightmost slash that leaves at
  least one character on both sides;
* `[^\]]+` cannot cross a `]`, so it takes exactly the characters up to the
  first `]`, which must exist and be non-empty.
-/

/-- The rightmost index `i` of `run` carrying `/` with at least one character
before and after it (the split chosen by the greedy `(\S+)/(\S+)`). -/
def slashIdx (run : List Char) : Option Nat :=
  ((List.range run.length).filter
    (fun i => run.getD i ' ' == '/' && decide (1 ≤ i) && decide (i + 2 ≤ run.length))).max?

/-- The capture groups of the key-line regex. -/
structure KeyLineGroups where
  marker : List Char
  algo : List Char
  keyId : List Char
  date : List Char
  caps : List Char
  expires : List Char
deriving DecidableEq

/-- The anchored key-line regex of `parseKeyLine`, as a deterministic
matcher; `none` is a failed match. -/
def matchKeyLine (cs : List Char) : Option KeyLineGroups :=
  let markerOpt : Option (List Char × List Char) :=
    if "sec".data.isPrefixOf cs then some ("sec".data, cs.drop 3)
    else if "ssb".data.isPrefixOf cs then some ("ssb".data, cs.drop 3)
    else none
  match markerOpt with
  | none => none
  | some (marker, r1) =>
    if r1.takeWhile isGoSpace = [] then none else
    let r2 := r1.dropWhile isGoSpace
    let run := r2.takeWhile nonSpace
    match slashIdx run with
    | none => none
    | some i =>
      let algo := run.take i
      let kid := run.drop (i + 1)
      let r3 := r2.dropWhile nonSpace
      if r3.takeWhile isGoSpace = [] then none else
      let r4 := r3.dropWhile isGoSpace
      let date := r4.takeWhile nonSpace
      if date = [] then none else
      let r5 := r4.dropWhile nonSpace
      if r5.takeWhile isGoSpace = [] then none else
      let r6 := r5.dropWhile isGoSpace
      match r6 with
      | '[' :: r7 =>
        let caps := r7.takeWhile (fun c => c ≠ ']')
        if caps = [] then none else
        match r7.drop caps.length with
        | ']' :: r8 =>
          let exp : List Char :=
            if r8.takeWhile isGoSpace = [] then [] else
            let r9 := r8.dropWhile isGoSpace
            if "[expires:".data.isPrefixOf r9 then
              let r10 := r9.drop 9
              if r10.takeWhile isGoSpace = [] then [] else
              let r11 := r10.dropWhile isGoSpace
              let e := r11.takeWhile (fun c => c ≠ ']')
              if e = [] then [] else
              match r11.drop e.length with
              | ']' :: _ => e
              | _ => []
            else []
          some ⟨marker, algo, kid, date, caps, exp⟩
        | _ => none
      | _ => none

/-- `gpg.parseKeyLine` on character lists.  On a failed match the Go function
returns the zero `Key{}`; on a match it sets `Type`, `KeyID`, `Capabilities`
and (when the optional group participated, i.e. `matches[6] != ""`)
`Expires` — since a participating expires group is never empty, storing the
group directly is the same assignment. -/
def parseKeyLineChars (line : List Char) : Key :=
  match matchKeyLine line with
  | some g =>
    { type := String.mk g.marker
      keyID := String.mk g.keyId
      fingerprint := ""
      capabilities := parseCapsChars g.caps
      expires := String.mk g.expires
      cardNo := "" }
  | none => emptyKey

/-- `gpg.parseKeyLine`. -/
def parseKeyLine (s : String) : Key := parseKeyLineChars s.data

/-! ## parseKeyList -/

/-- The body of the `parseKeyList` loop for one raw line.  The accumulator
holds the appended records most recent first (`currentKey` of the source is
the head); `parseKeyListChars` reverses it at the end. -/
def keyListStep (acc : List Key) (line : List Char) : List Key :=
  let t := trimChars line
  if t = [] then acc
  else if "sec".data.isPrefixOf t || "ssb".data.isPrefixOf t then
    parseKeyLineChars t :: acc
  else if "card-no:".data.isPrefixOf t then
    match acc with
    | [] => []
    | k :: rest =>
      let parts := goFields t
      if 2 ≤ parts.length then
        { k with cardNo := String.mk (joinSpace (parts.drop 1)) } :: rest
      else k :: rest
  else acc

/-- `gpg.parseKeyList` on character lists. -/
def parseKeyListChars (output : List Char) : List Key :=
  ((splitOnChar '\n' output).foldl keyListStep []).reverse

/-- `gpg.parseKeyList`. -/
def parseKeyList (output : String) : List Key := parseKeyListChars output.data

/-! ## parseCardStatus -/

/-- The `Serial number` branch of the `parseCardStatus` loop (first `if`). -/
def serialStep (info : CardInfo) (t : List Char) : CardInfo :=
  if "Serial number".data.isPrefixOf t then
    let parts := goFields t
    if 4 ≤ parts.length then { info with serial := String.mk (parts.getD 3 []) }
    else info
  else info

/-- The `Name of cardholder` branch of the `parseCardStatus` loop (second
`if`). -/
def cardholderStep (info : CardInfo) (t : List Char) : CardInfo :=
  if "Name of cardholder".data.isPrefixOf t then
    match splitN2Colon t with
    | some (_, r) => { info with cardholder := String.mk (trimChars r) }
    | none => info
  else info

/-- The key-slot branch of the `parseCardStatus` loop (third `if`). -/
def slotStep (info : CardInfo) (t : List Char) : CardInfo :=
  if listContains t "key".data && listContains t ":".data then
    match splitN2Colon t with
    | some (l, r) =>
      let keyTypePart := trimChars l
      let keyType :=
        match findSubIdx keyTypePart " key".data with
        | some i => if 0 < i then keyTypePart.take i else keyTypePart
        | none => keyTypePart
      let keyType2 := trimChars keyType
      let keyID := trimChars r
      if keyID ≠ "[none]".data && keyID ≠ [] then
        { info with keys := (String.mk keyType2, String.mk keyID) :: info.keys }
      else info
    | none => info
  else info

/-- The body of the `parseCardStatus` loop for one raw line: trim, skip if
empty, then the three independent pattern branches in source order. -/
def cardStep (info : CardInfo) (line : List Char) : CardInfo :=
  let t := trimChars line
  if t = [] then info
  else slotStep (cardholderStep (serialStep info t) t) t

/-- Everything left of the first colon (the first part of the Go call
`strings.SplitN(s, ":", 2)`), as named by the spec. -/
def leftOfColon (t : List Char) : List Char := t.takeWhile (fun c => c ≠ ':')

/-- Everything right of the first colon (the second part of the Go call
`strings.SplitN(s, ":", 2)`), as named by the spec. -/
def rightOfColon (t : List Char) : List Char := t.drop ((leftOfColon t).length + 1)

/-- `gpg.parseCardStatus`. -/
def parseCardStatus (output : String) : CardInfo :=
  (splitOnChar '\n' output.data).foldl cardStep emptyCardInfo

/-! ## cli.removeMasterKey (internal/cli/helpers.go)

The `gpg.Service` methods invoked by `removeMasterKey` shell out to the
external tool; they are modelled by a record of deterministic responses
(`GpgSvc`), and `removeMasterKey` additionally records the sequence of
service calls it performs, in order. -/

/-- One call to the key-directory service. -/
inductive GpgCall where
  | list (keyID : String)
  | exportSubkeys (keyID : String)
  | exportPub (keyID : String)
  | deleteKey (fingerprint : String)
  | importKey (data : String)
deriving DecidableEq

/-- The responses of the `gpg.GPGService` dependency (byte slices are
strings; a Go `error` result is `Except.error` with the error text). -/
structure GpgSvc where
  listSecretKeys : String → Except String (List Key)
  exportSecretSubkeys : String → Except String String
  exportPublicKey : String → Except String String
  deleteSecretKey : String → Except String Unit
  importKey : String → Except String Unit

/-- The key-ID truncation at the top of `removeMasterKey`:
`fingerprint[:16]` when the fingerprint is longer than 16 characters. -/
def truncKeyID (fingerprint : String) : String :=
  if fingerprint.length > 16 then fingerprint.take 16 else fingerprint

/-- The loop of `removeMasterKey` deciding whether the master key is on the
machine: some record has `Type == "sec"` (and, redundantly, no `"#"`
suffix — a type equal to `"sec"` never has one). -/
def hasMasterOnMachine (keys : List Key) : Bool :=
  keys.any (fun k => k.type == "sec" && !(strEndsWith k.type "#"))

/-- `cli.removeMasterKey`, returning its result together with the trace of
service calls it performed (in order). -/
def removeMasterKey (svc : GpgSvc) (fingerprint : String) :
    Except String Unit × List GpgCall :=
  let keyID := truncKeyID fingerprint
  match svc.listSecretKeys keyID with
  | .error e => (.error ("failed to list keys: " ++ e), [.list keyID])
  | .ok keys =>
    if !hasMasterOnMachine keys then
      (.ok (), [.list keyID])
    else
      let subkeys : Option String :=
        match svc.exportSecretSubkeys keyID with
        | .error _ => none
        | .ok d => some d
      match svc.exportPublicKey keyID with
      | .error e =>
        (.error ("failed to export public key: " ++ e),
         [.list keyID, .exportSubkeys keyID, .exportPub keyID])
      | .ok publicKey =>
        match svc.deleteSecretKey fingerprint with
        | .error e =>
          (.error ("failed to delete secret key: " ++ e),
           [.list keyID, .exportSubkeys keyID, .exportPub keyID, .deleteKey fingerprint])
        | .ok _ =>
          match svc.importKey publicKey with
          | .error e =>
            (.error ("failed to import public key: " ++ e),
             [.list keyID, .exportSubkeys keyID, .exportPub keyID,
              .deleteKey fingerprint, .importKey publicKey])
          | .ok _ =>
            match subkeys with
            | some d =>
              if d.length > 0 then
                (.ok (),
                 [.list keyID, .exportSubkeys keyID, .exportPub keyID,
                  .deleteKey fingerprint, .importKey publicKey, .importKey d])
              else
                (.ok (),
                 [.list keyID, .exportSubkeys keyID, .exportPub keyID,
                  .deleteKey fingerprint, .importKey publicKey])
            | none =>
              (.ok (),
               [.list keyID, .exportSubkeys keyID, .exportPub keyID,
                .deleteKey fingerprint, .importKey publicKey])

/-! ## executor.RealExecutor.RunInteractive -/

/-- Outcome of running the child process: clean exit, exit with a non-zero
code (the Go `*exec.ExitError`), or failure to launch. -/
inductive RunOutcome where
  | success
  | exited (code : Int)
  | startFailure (msg : String)
deriving DecidableEq

/-- The error classification of `RealExecutor.RunInteractive` (part_005):
`none` models a `nil` error. -/
def runInteractiveResult (name : String) (outcome : RunOutcome) : Option String :=
  match outcome with
  | .success => none
  | .exited code =>
    if name == "gpg" && code == 2 then none
    else some ("command failed with exit code " ++ toString code)
  | .startFailure m => some ("failed to execute command: " ++ m)

/-! ## yubikey.Service (part_001)

`IsPresent` and `SupportsOpenPGP` consult two external signals: the result of
`ykman info` (through the executor) and the result of
`gpgService.CardStatus`.  Both are deterministic per invocation and are
modelled as a state record; a Go `(bool, error)` return value becomes
`Bool × Option String`. -/

/-- The external responses consulted by the yubikey service. -/
structure YkState where
  ykmanInfo : Except String String
  cardStatus : Except String CardInfo

/-- The `ykman info` output scan of `SupportsOpenPGP`: the first trimmed line
with a protocol-name marker (`OpenPGP` at the start) that contains a negative
marker decides `false`, a positive marker decides `true`; an `OpenPGP` line
with neither marker is skipped and the scan continues. -/
def ykmanDecision : List String → Option Bool
  | [] => none
  | l :: rest =>
    let t := strTrim l
    if "OpenPGP".data.isPrefixOf t.data then
      if strContains t "Not available" || strContains t "Disabled" then some false
      else if strContains t "Enabled" || strContains t "Available" then some true
      else ykmanDecision rest
    else ykmanDecision rest

/-- The inventory probe of `SupportsOpenPGP`: `none` when `ykman` failed to
run or its output contained no decisive `OpenPGP` line. -/
def ykmanProbe (st : YkState) : Option Bool :=
  match st.ykmanInfo with
  | .ok out => ykmanDecision ((splitOnChar '\n' out.data).map String.mk)
  | .error _ => none

/-- `yubikey.Service.SupportsOpenPGP`. -/
def supportsOpenPGP (st : YkState) : Bool × Option String :=
  match ykmanProbe st with
  | some b => (b, none)
  | none =>
    match st.cardStatus with
    | .ok _ => (true, none)
    | .error e =>
      if strContains e "Operation not supported by device" then
        (false, some ("unable to determine if YubiKey supports OpenPGP. " ++
          "The device may not support OpenPGP (some YubiKey models like Security " ++
          "Key don\x27t), or the OpenPGP applet may not be initialized. " ++
          "Try: gpg --card-status or install ykman and run: ykman info"))
      else
        (false, some ("unable to check OpenPGP support: " ++ e))

/-- `yubikey.Service.IsPresent`. -/
def isPresent (st : YkState) : Bool × Option String :=
  match st.cardStatus with
  | .ok _ => (true, none)
  | .error err =>
    if strContains err "Operation not supported by device" ||
       strContains err "OpenPGP card not available" then
      let res := supportsOpenPGP st
      if res.2 == none && !res.1 then
        (false, some ("YubiKey detected but does not support OpenPGP. This " ++
          "YubiKey model (Security Key series) does not have OpenPGP " ++
          "functionality. Only YubiKey 4, 5, and some NEO models support OpenPGP."))
      else
        (false, some ("YubiKey detected but not initialized for OpenPGP. " ++
          "Please initialize it first using \x27gpg --card-edit\x27 or " ++
          "\x27ykman openpgp reset\x27"))
    else (false, none)

/-! ## Supporting lemmas -/

/-- The spec-side characterization of a recognized capability letter. -/
def recognizedCap (c : Char) : Bool := c = 'S' || c = 'E' || c = 'A' || c = 'C'

lemma parseCapsChars_eq_filter (cs : List Char) :
    parseCapsChars cs = (cs.filter recognizedCap).map (fun c => String.mk [c]) := by
  induction cs with
  | nil => rfl
  | cons c rest ih =>
    by_cases hS : c = 'S'
    · subst hS; simpa [parseCapsChars, capChar, recognizedCap] using ih
    · by_cases hE : c = 'E'
      · subst hE; simpa [parseCapsChars, capChar, recognizedCap] using ih
      · by_cases hA : c = 'A'
        · subst hA; simpa [parseCapsChars, capChar, recognizedCap] using ih
        · by_cases hC : c = 'C'
          · subst hC; simpa [parseCapsChars, capChar, recognizedCap] using ih
          · simpa [parseCapsChars, capChar, recognizedCap, hS, hE, hA, hC] using ih

/-! ## C4 — parseCapabilities keeps exactly the recognized letters, in order -/

/-- C4: for every capability bracket string, `parseCapabilities` returns
exactly the recognized letters S, E, A, C in input order, dropping every
unrecognized character; in particular "SCEA" yields [S, C, E, A] and "ZS"
yields [S]. -/
theorem parseCapabilities_filters_in_order :
    parseCapabilities "SCEA" = ["S", "C", "E", "A"] ∧
    parseCapabilities "ZS" = ["S"] ∧
    ∀ s : String, parseCapabilities s =
      (s.data.filter recognizedCap).map (fun c => String.mk [c]) := by
  refine ⟨by decide, by decide, fun s => ?_⟩
  exact parseCapsChars_eq_filter s.data

/-! ## C3 — `sec#`/`ssb>` marker lines -/

/-- C3 (code bug): a listing line whose marker carries the stub/resident
suffix character (`sec#`, `ssb>`) does start a new record in `parseKeyList`,
but — because the regex of `parseKeyLine` demands whitespace immediately
after the marker word — the match fails and the record is appended with
empty `Type` and `KeyID` instead of the marker word and key identifier the
repository test `TestParseKeyLine` expects; an unsuffixed marker line
extracts all fields. -/
theorem parseKeyLine_stub_suffix_loses_fields :
    parseKeyLine "sec#  ed25519/07AAA1E535650AF5 2025-09-05 [SC] [expires: 2030-09-04]" =
      emptyKey ∧
    parseKeyLine "ssb>  ed25519/DC47D1B090A51498 2025-09-05 [S]" = emptyKey ∧
    parseKeyList "sec#  ed25519/07AAA1E535650AF5 2025-09-05 [SC] [expires: 2030-09-04]" =
      [emptyKey] ∧
    emptyKey.type ≠ "sec" ∧ emptyKey.keyID ≠ "07AAA1E535650AF5" ∧
    parseKeyLine "sec   rsa4096/ABC123DEF4567890 2023-01-01 [SC] [expires: 2028-01-01]" =
      { type := "sec", keyID := "ABC123DEF4567890", fingerprint := "",
        capabilities := ["S", "C"], expires := "2028-01-01", cardNo := "" } := by
  refine ⟨by decide, by decide, by decide, by decide, by decide, by decide⟩

/-! ## C7 — the gpg exit-code-2 carve-out of RunInteractive -/

/-- C7: an interactive invocation exiting with code 2 is a success exactly
for the program "gpg"; the same exit code from any other program, and any
other exit code on the `*exec.ExitError` path of gpg, yields a non-nil error
carrying the exit code. -/
theorem runInteractive_gpg_exit2_carveout :
    runInteractiveResult "gpg" (RunOutcome.exited 2) = none ∧
    (∀ name : String, name ≠ "gpg" →
      runInteractiveResult name (RunOutcome.exited 2) =
        some ("command failed with exit code " ++ toString (2 : Int))) ∧
    (∀ code : Int, code ≠ 2 →
      runInteractiveResult "gpg" (RunOutcome.exited code) =
        some ("command failed with exit code " ++ toString code)) := by
  refine ⟨rfl, fun name h => ?_, fun code h => ?_⟩
  · have hb : (name == "gpg") = false := beq_eq_false_iff_ne.mpr h
    simp [runInteractiveResult, hb]
  · have hb : (code == 2) = false := beq_eq_false_iff_ne.mpr h
    simp [runInteractiveResult, hb]

/-- Witness for C7 at program "git" and at gpg exit code 3. -/
theorem runInteractive_gpg_exit2_carveout_witness :
    runInteractiveResult "git" (RunOutcome.exited 2) =
      some ("command failed with exit code " ++ toString (2 : Int)) ∧
    runInteractiveResult "gpg" (RunOutcome.exited 3) =
      some ("command failed with exit code " ++ toString (3 : Int)) :=
  ⟨runInteractive_gpg_exit2_carveout.2.1 "git" (by decide),
   runInteractive_gpg_exit2_carveout.2.2 3 (by decide)⟩

/-- Shape of the call trace of `removeMasterKey`: it always starts with the
list query, and a delete call can only be the fourth call, on the full
fingerprint, after the subkey export, after a public-key export that
succeeded. -/
lemma removeMasterKey_trace_spec (svc : GpgSvc) (fp : String) :
    (removeMasterKey svc fp).2.head? = some (GpgCall.list (truncKeyID fp)) ∧
    ∀ f, GpgCall.deleteKey f ∈ (removeMasterKey svc fp).2 → f = fp ∧
      (∃ pub, svc.exportPublicKey (truncKeyID fp) = Except.ok pub) ∧
      (removeMasterKey svc fp).2.take 4 =
        [GpgCall.list (truncKeyID fp), GpgCall.exportSubkeys (truncKeyID fp),
         GpgCall.exportPub (truncKeyID fp), GpgCall.deleteKey fp] := by
  cases h1 : svc.listSecretKeys (truncKeyID fp) with
  | error e =>
    exact ⟨by simp [removeMasterKey, h1], fun f hf => by simp [removeMasterKey, h1] at hf⟩
  | ok keys =>
    cases h2 : hasMasterOnMachine keys with
    | false =>
      exact ⟨by simp [removeMasterKey, h1, h2],
        fun f hf => by simp [removeMasterKey, h1, h2] at hf⟩
    | true =>
      cases h6 : svc.exportSecretSubkeys (truncKeyID fp) with
      | error e6 =>
        cases h3 : svc.exportPublicKey (truncKeyID fp) with
        | error e3 =>
          exact ⟨by simp [removeMasterKey, h1, h2, h6, h3],
            fun f hf => by simp [removeMasterKey, h1, h2, h6, h3] at hf⟩
        | ok pub =>
          cases h4 : svc.deleteSecretKey fp with
          | error e4 =>
            refine ⟨by simp [removeMasterKey, h1, h2, h6, h3, h4], fun f hf => ?_⟩
            simp [removeMasterKey, h1, h2, h6, h3, h4] at hf
            exact ⟨hf, ⟨pub, rfl⟩, by simp [removeMasterKey, h1, h2, h6, h3, h4, hf]⟩
          | ok u4 =>
            cases h5 : svc.importKey pub with
            | error e5 =>
              refine ⟨by simp [removeMasterKey, h1, h2, h6, h3, h4, h5], fun f hf => ?_⟩
              simp [removeMasterKey, h1, h2, h6, h3, h4, h5] at hf
              exact ⟨hf, ⟨pub, rfl⟩,
                by simp [removeMasterKey, h1, h2, h6, h3, h4, h5, hf]⟩
            | ok u5 =>
              refine ⟨by simp [removeMasterKey, h1, h2, h6, h3, h4, h5], fun f hf => ?_⟩
              simp [removeMasterKey, h1, h2, h6, h3, h4, h5] at hf
              exact ⟨hf, ⟨pub, rfl⟩,
                by simp [removeMasterKey, h1, h2, h6, h3, h4, h5, hf]⟩
      | ok d =>
        cases h3 : svc.exportPublicKey (truncKeyID fp) with
        | error e3 =>
          exact ⟨by simp [removeMasterKey, h1, h2, h6, h3],
            fun f hf => by simp [removeMasterKey, h1, h2, h6, h3] at hf⟩
        | ok pub =>
          cases h4 : svc.deleteSecretKey fp with
          | error e4 =>
            refine ⟨by simp [removeMasterKey, h1, h2, h6, h3, h4], fun f hf => ?_⟩
            simp [removeMasterKey, h1, h2, h6, h3, h4] at hf
            exact ⟨hf, ⟨pub, rfl⟩, by simp [removeMasterKey, h1, h2, h6, h3, h4, hf]⟩
          | ok u4 =>
            cases h5 : svc.importKey pub with
            | error e5 =>
              refine ⟨by simp [removeMasterKey, h1, h2, h6, h3, h4, h5], fun f hf => ?_⟩
              simp [removeMasterKey, h1, h2, h6, h3, h4, h5] at hf
              exact ⟨hf, ⟨pub, rfl⟩,
                by simp [removeMasterKey, h1, h2, h6, h3, h4, h5, hf]⟩
            | ok u5 =>
              by_cases hd : d.length > 0
              · refine ⟨by simp [removeMasterKey, h1, h2, h6, h3, h4, h5, hd],
                  fun f hf => ?_⟩
                simp [removeMasterKey, h1, h2, h6, h3, h4, h5, hd] at hf
                exact ⟨hf, ⟨pub, rfl⟩,
                  by simp [removeMasterKey, h1, h2, h6, h3, h4, h5, hd, hf]⟩
              · refine ⟨by simp [removeMasterKey, h1, h2, h6, h3, h4, h5, hd],
                  fun f hf => ?_⟩
                simp [removeMasterKey, h1, h2, h6, h3, h4, h5, hd] at hf
                exact ⟨hf, ⟨pub, rfl⟩,
                  by simp [removeMasterKey, h1, h2, h6, h3, h4, h5, hd, hf]⟩

/-! ## C1 — a failed public-key export aborts before any mutation -/

/-- C1: in every execution of `removeMasterKey` that reaches the public-key
export step (master key on the machine) and in which that export fails, the
transition aborts with an error, and no delete or import call is ever made;
moreover, in every execution whatsoever, a delete call happens only as the
fourth call, after the public-key export has been made and has succeeded. -/
theorem removeMasterKey_export_fail_aborts (svc : GpgSvc) (fingerprint e : String)
    (keys : List Key)
    (hlist : svc.listSecretKeys (truncKeyID fingerprint) = Except.ok keys)
    (hmaster : hasMasterOnMachine keys = true)
    (hexp : svc.exportPublicKey (truncKeyID fingerprint) = Except.error e) :
    (removeMasterKey svc fingerprint).1 =
      Except.error ("failed to export public key: " ++ e) ∧
    (∀ f, GpgCall.deleteKey f ∉ (removeMasterKey svc fingerprint).2) ∧
    (∀ d, GpgCall.importKey d ∉ (removeMasterKey svc fingerprint).2) ∧
    (∀ (svc2 : GpgSvc) (fp2 : String) (f : String),
      GpgCall.deleteKey f ∈ (removeMasterKey svc2 fp2).2 →
      (∃ pub, svc2.exportPublicKey (truncKeyID fp2) = Except.ok pub) ∧
      (removeMasterKey svc2 fp2).2.take 4 =
        [GpgCall.list (truncKeyID fp2), GpgCall.exportSubkeys (truncKeyID fp2),
         GpgCall.exportPub (truncKeyID fp2), GpgCall.deleteKey fp2]) := by
  cases h6 : svc.exportSecretSubkeys (truncKeyID fingerprint) with
  | error e6 =>
    refine ⟨by simp [removeMasterKey, hlist, hmaster, h6, hexp],
      fun f => by simp [removeMasterKey, hlist, hmaster, h6, hexp],
      fun d => by simp [removeMasterKey, hlist, hmaster, h6, hexp],
      fun svc2 fp2 f hf => ?_⟩
    have h := (removeMasterKey_trace_spec svc2 fp2).2 f hf
    exact ⟨h.2.1, h.1 ▸ h.2.2⟩
  | ok d6 =>
    refine ⟨by simp [removeMasterKey, hlist, hmaster, h6, hexp],
      fun f => by simp [removeMasterKey, hlist, hmaster, h6, hexp],
      fun d => by simp [removeMasterKey, hlist, hmaster, h6, hexp],
      fun svc2 fp2 f hf => ?_⟩
    have h := (removeMasterKey_trace_spec svc2 fp2).2 f hf
    exact ⟨h.2.1, h.1 ▸ h.2.2⟩

/-- Witness for C1: a service whose listing shows the master key on the
machine and whose public-key export fails. -/
theorem removeMasterKey_export_fail_aborts_witness :
    (removeMasterKey
      { listSecretKeys := fun _ => Except.ok [{ emptyKey with type := "sec" }]
        exportSecretSubkeys := fun _ => Except.error "export subkeys failed"
        exportPublicKey := fun _ => Except.error "disk full"
        deleteSecretKey := fun _ => Except.ok ()
        importKey := fun _ => Except.ok () }
      "ABC123DEF4567890").1 =
      Except.error ("failed to export public key: " ++ "disk full") ∧
    (∀ f, GpgCall.deleteKey f ∉
      (removeMasterKey
        { listSecretKeys := fun _ => Except.ok [{ emptyKey with type := "sec" }]
          exportSecretSubkeys := fun _ => Except.error "export subkeys failed"
          exportPublicKey := fun _ => Except.error "disk full"
          deleteSecretKey := fun _ => Except.ok ()
          importKey := fun _ => Except.ok () }
        "ABC123DEF4567890").2) := by
  have h := removeMasterKey_export_fail_aborts
    { listSecretKeys := fun _ => Except.ok [{ emptyKey with type := "sec" }]
      exportSecretSubkeys := fun _ => Except.error "export subkeys failed"
      exportPublicKey := fun _ => Except.error "disk full"
      deleteSecretKey := fun _ => Except.ok ()
      importKey := fun _ => Except.ok () }
    "ABC123DEF4567890" "disk full" [{ emptyKey with type := "sec" }]
    rfl (by decide) rfl
  exact ⟨h.1, h.2.1⟩

/-! ## C10 — the listing filter is the first 16 characters, delete gets the
full fingerprint -/

/-- C10: for a fingerprint longer than 16 characters, the key-listing filter
of `removeMasterKey` is the first 16 characters of the fingerprint (the
first external call is the list query on it), while every delete call uses
the full untruncated fingerprint. -/
theorem removeMasterKey_first16_filter (svc : GpgSvc) (fingerprint : String)
    (h : 16 < fingerprint.length) :
    truncKeyID fingerprint = fingerprint.take 16 ∧
    (removeMasterKey svc fingerprint).2.head? =
      some (GpgCall.list (fingerprint.take 16)) ∧
    (∀ f, GpgCall.deleteKey f ∈ (removeMasterKey svc fingerprint).2 →
      f = fingerprint) := by
  have ht : truncKeyID fingerprint = fingerprint.take 16 := by
    simp [truncKeyID, h]
  exact ⟨ht, ht ▸ (removeMasterKey_trace_spec svc fingerprint).1,
    fun f hf => ((removeMasterKey_trace_spec svc fingerprint).2 f hf).1⟩

/-- Witness for C10 at a 40-character fingerprint; its first 16 characters
differ from its last 16 (the conventional long key ID). -/
theorem removeMasterKey_first16_filter_witness :
    truncKeyID "FA57C85131F11B28EE236A4F07AAA1E535650AF5" =
      "FA57C85131F11B28EE236A4F07AAA1E535650AF5".take 16 ∧
    "FA57C85131F11B28EE236A4F07AAA1E535650AF5".take 16 = "FA57C85131F11B28" ∧
    "FA57C85131F11B28" ≠ "07AAA1E535650AF5" := by
  refine ⟨(removeMasterKey_first16_filter
    { listSecretKeys := fun _ => Except.error "list failed"
      exportSecretSubkeys := fun _ => Except.ok ""
      exportPublicKey := fun _ => Except.ok ""
      deleteSecretKey := fun _ => Except.ok ()
      importKey := fun _ => Except.ok () }
    "FA57C85131F11B28EE236A4F07AAA1E535650AF5" (by decide)).1, by decide, by decide⟩

/-! ## C2 — removeMasterKey is a successful no-op when already offline -/

/-- C2: when the listing for the target key contains no record whose kind
marker says the secret material is on the machine (no `Type = "sec"`),
`removeMasterKey` succeeds and performs exactly one external operation — the
list query — with zero export, delete, or import calls. -/
theorem removeMasterKey_already_offline (svc : GpgSvc) (fingerprint : String)
    (keys : List Key)
    (hlist : svc.listSecretKeys (truncKeyID fingerprint) = Except.ok keys)
    (hoff : ∀ k ∈ keys, k.type ≠ "sec") :
    removeMasterKey svc fingerprint =
      (Except.ok (), [GpgCall.list (truncKeyID fingerprint)]) ∧
    (∀ kid, GpgCall.exportPub kid ∉ (removeMasterKey svc fingerprint).2) ∧
    (∀ kid, GpgCall.exportSubkeys kid ∉ (removeMasterKey svc fingerprint).2) ∧
    (∀ f, GpgCall.deleteKey f ∉ (removeMasterKey svc fingerprint).2) ∧
    (∀ d, GpgCall.importKey d ∉ (removeMasterKey svc fingerprint).2) := by
  have hm : hasMasterOnMachine keys = false := by
    simp only [hasMasterOnMachine, List.any_eq_false]
    intro k hk
    simp [hoff k hk]
  have hres : removeMasterKey svc fingerprint =
      (Except.ok (), [GpgCall.list (truncKeyID fingerprint)]) := by
    simp [removeMasterKey, hlist, hm]
  refine ⟨hres, ?_, ?_, ?_, ?_⟩ <;> intro x <;> simp [hres]

/-- Witness for C2: a listing whose primary-key record was parsed from a
`sec#` line (empty type) and whose subkey is `ssb`. -/
theorem removeMasterKey_already_offline_witness :
    removeMasterKey
      { listSecretKeys := fun _ => Except.ok
          [{ emptyKey with keyID := "ABC123DEF4567890" },
           { emptyKey with type := "ssb", keyID := "1234567890ABCDEF" }]
        exportSecretSubkeys := fun _ => Except.ok "SUBKEYS"
        exportPublicKey := fun _ => Except.ok "PUB"
        deleteSecretKey := fun _ => Except.ok ()
        importKey := fun _ => Except.ok () }
      "FA57C85131F11B28EE236A4F07AAA1E535650AF5" =
      (Except.ok (), [GpgCall.list "FA57C85131F11B28"]) := by
  have h := removeMasterKey_already_offline
    { listSecretKeys := fun _ => Except.ok
        [{ emptyKey with keyID := "ABC123DEF4567890" },
         { emptyKey with type := "ssb", keyID := "1234567890ABCDEF" }]
      exportSecretSubkeys := fun _ => Except.ok "SUBKEYS"
      exportPublicKey := fun _ => Except.ok "PUB"
      deleteSecretKey := fun _ => Except.ok ()
      importKey := fun _ => Except.ok () }
    "FA57C85131F11B28EE236A4F07AAA1E535650AF5"
    [{ emptyKey with keyID := "ABC123DEF4567890" },
     { emptyKey with type := "ssb", keyID := "1234567890ABCDEF" }]
    rfl (by decide)
  have ht : truncKeyID "FA57C85131F11B28EE236A4F07AAA1E535650AF5" = "FA57C85131F11B28" := by
    decide
  exact ht ▸ h.1

/-! ## C5 — card-no lines amend the most recent record only -/

/-- Computation of `keyListStep` on a line whose trimmed form begins with
"card-no:", split by the shape of the accumulator. -/
lemma keyListStep_cardNo_eq (acc : List Key) (line : List Char)
    (h : "card-no:".data.isPrefixOf (trimChars line)) :
    (acc = [] → keyListStep acc line = []) ∧
    (∀ k rest, acc = k :: rest → keyListStep acc line =
        (if 2 ≤ (goFields (trimChars line)).length then
          { k with cardNo := String.mk (joinSpace ((goFields (trimChars line)).drop 1)) }
         else k) :: rest) := by
  rw [List.isPrefixOf_iff_prefix] at h
  obtain ⟨u, hu⟩ := h
  have hchars : "card-no:".data = ['c', 'a', 'r', 'd', '-', 'n', 'o', ':'] := rfl
  rw [hchars] at hu
  simp only [List.cons_append, List.nil_append] at hu
  have g2 : List.isPrefixOf "sec".data
      ('c' :: 'a' :: 'r' :: 'd' :: '-' :: 'n' :: 'o' :: ':' :: u) = false := rfl
  have g3 : List.isPrefixOf "ssb".data
      ('c' :: 'a' :: 'r' :: 'd' :: '-' :: 'n' :: 'o' :: ':' :: u) = false := rfl
  have g4 : List.isPrefixOf "card-no:".data
      ('c' :: 'a' :: 'r' :: 'd' :: '-' :: 'n' :: 'o' :: ':' :: u) = true := by
    have he : ('c' :: 'a' :: 'r' :: 'd' :: '-' :: 'n' :: 'o' :: ':' :: u) =
        "card-no:".data ++ u := by simp [hchars]
    rw [he]
    exact List.isPrefixOf_iff_prefix.mpr (List.prefix_append _ _)
  constructor
  · intro ha; subst ha
    simp [keyListStep, ← hu, g2, g3, g4]
  · intro k rest ha; subst ha
    by_cases h2 :
        2 ≤ (goFields ('c' :: 'a' :: 'r' :: 'd' :: '-' :: 'n' :: 'o' :: ':' :: u)).length
    · simp [keyListStep, ← hu, g2, g3, g4, h2]
    · simp [keyListStep, ← hu, g2, g3, g4, h2]

/-- C5: a line whose trimmed form begins with "card-no:" never starts a new
record: the per-line transition of `parseKeyList` preserves the record
count, leaves every earlier record untouched, is ignored when no record has
been appended yet, and sets the CardNo of the most recently appended record
(the head of the accumulator) to the whitespace-joined remainder of the line
whenever a remainder is present. -/
theorem cardNo_line_attaches_to_last_only (acc : List Key) (line : List Char)
    (h : "card-no:".data.isPrefixOf (trimChars line)) :
    (keyListStep acc line).length = acc.length ∧
    (acc = [] → keyListStep acc line = []) ∧
    (∀ k rest, acc = k :: rest →
      ∃ c, keyListStep acc line = { k with cardNo := c } :: rest) ∧
    (∀ k rest, acc = k :: rest → 2 ≤ (goFields (trimChars line)).length →
      keyListStep acc line =
        { k with cardNo := String.mk (joinSpace ((goFields (trimChars line)).drop 1)) }
          :: rest) := by
  have heq := keyListStep_cardNo_eq acc line h
  refine ⟨?_, heq.1, ?_, ?_⟩
  · cases acc with
    | nil => simp [heq.1 rfl]
    | cons k rest =>
      rw [heq.2 k rest rfl]
      by_cases h2 : 2 ≤ (goFields (trimChars line)).length <;> simp [h2]
  · intro k rest ha; subst ha
    by_cases h2 : 2 ≤ (goFields (trimChars line)).length
    · refine ⟨String.mk (joinSpace ((goFields (trimChars line)).drop 1)), ?_⟩
      rw [heq.2 k rest rfl]
      simp [h2]
    · exact ⟨k.cardNo, by rw [heq.2 k rest rfl, if_neg h2]⟩
  · intro k rest ha h2; subst ha
    rw [heq.2 k rest rfl]
    simp [h2]

/-- Witness for C5 on the example of the spec: two subkey records followed by one
"card-no: 0006 12345678" line — only the second (most recent) record gets
the token serial. -/
theorem cardNo_line_attaches_to_last_only_witness :
    (keyListStep [] (" card-no: 0006 12345678").data = [] ∧
      keyListStep
        [parseKeyLineChars ("ssb   ed25519/DC47D1B090A51498 2025-09-05 [S]").data,
         parseKeyLineChars ("ssb   cv25519/116DB85718F8B287 2025-09-05 [E]").data]
        (" card-no: 0006 12345678").data =
        [{ parseKeyLineChars ("ssb   ed25519/DC47D1B090A51498 2025-09-05 [S]").data with
            cardNo := String.mk (joinSpace ((goFields
              (trimChars (" card-no: 0006 12345678").data)).drop 1)) },
         parseKeyLineChars ("ssb   cv25519/116DB85718F8B287 2025-09-05 [E]").data]) ∧
    String.mk (joinSpace ((goFields
      (trimChars (" card-no: 0006 12345678").data)).drop 1)) = "0006 12345678" ∧
    parseKeyList ("ssb   cv25519/116DB85718F8B287 2025-09-05 [E]\n" ++
        "ssb   ed25519/DC47D1B090A51498 2025-09-05 [S]\n" ++
        "card-no: 0006 12345678") =
      [{ type := "ssb", keyID := "116DB85718F8B287", fingerprint := "",
          capabilities := ["E"], expires := "", cardNo := "" },
       { type := "ssb", keyID := "DC47D1B090A51498", fingerprint := "",
          capabilities := ["S"], expires := "", cardNo := "0006 12345678" }] := by
  have h1 := cardNo_line_attaches_to_last_only [] (" card-no: 0006 12345678").data
    (by decide)
  have h2 := cardNo_line_attaches_to_last_only
    [parseKeyLineChars ("ssb   ed25519/DC47D1B090A51498 2025-09-05 [S]").data,
     parseKeyLineChars ("ssb   cv25519/116DB85718F8B287 2025-09-05 [E]").data]
    (" card-no: 0006 12345678").data (by decide)
  exact ⟨⟨h1.2.1 rfl, h2.2.2.2 _ _ rfl (by decide)⟩, by decide, by decide⟩

/-! ## C6 — card-status slot lines -/

lemma dropWhile_head_false (p : Char → Bool) :
    ∀ (l : List Char) (c : Char) (cs : List Char), l.dropWhile p = c :: cs → p c = false := by
  intro l
  induction l with
  | nil =>
    intro c cs h
    have h0 : ([] : List Char).dropWhile p = [] := rfl
    rw [h0] at h
    exact List.noConfusion h
  | cons a t ih =>
    intro c cs h
    rw [List.dropWhile_cons] at h
    cases hpa : p a with
    | true =>
      rw [hpa, if_pos rfl] at h
      exact ih c cs h
    | false =>
      rw [hpa, if_neg (by simp)] at h
      obtain ⟨h1, h2⟩ := List.cons.inj h
      rw [← h1]
      exact hpa

lemma trimChars_head_not_space (s : List Char) (c : Char) (cs : List Char)
    (h : trimChars s = c :: cs) : isGoSpace c = false := by
  unfold trimChars at h
  have h2 : (s.dropWhile isGoSpace).reverse.dropWhile isGoSpace = (c :: cs).reverse := by
    rw [← h, List.reverse_reverse]
  have hsuf : (c :: cs).reverse <:+ (s.dropWhile isGoSpace).reverse :=
    h2 ▸ List.dropWhile_suffix _
  obtain ⟨u, hu⟩ := List.reverse_suffix.mp hsuf
  exact dropWhile_head_false isGoSpace s c (cs ++ u) (by rw [← hu]; rfl)

lemma mem_of_listContains_single (c : Char) :
    ∀ s : List Char, listContains s [c] = true → c ∈ s := by
  intro s
  induction s with
  | nil =>
    intro h
    have h0 : listContains [] [c] = false := rfl
    rw [h0] at h
    exact Bool.noConfusion h
  | cons a t ih =>
    intro h
    rw [listContains, Bool.or_eq_true] at h
    rcases h with h | h
    · have h2 : (c == a) = true := by
        have h3 : ((c == a) && List.isPrefixOf [] t) = true := h
        exact ((Bool.and_eq_true ..).mp h3).1
      rw [eq_of_beq h2]
      exact List.mem_cons_self a t
    · exact List.mem_cons_of_mem a (ih h)

lemma leftOfColon_length_lt : ∀ s : List Char, ':' ∈ s → (leftOfColon s).length < s.length := by
  intro s
  induction s with
  | nil => intro h; simp at h
  | cons a t ih =>
    intro h
    unfold leftOfColon
    rw [List.takeWhile_cons]
    by_cases ha : a = ':'
    · rw [if_neg (by simp [ha])]
      simp
    · rw [if_pos (by simp [ha])]
      have hm : ':' ∈ t := by
        rcases List.mem_cons.mp h with h1 | h1
        · exact absurd h1.symm ha
        · exact h1
      have hlt := ih hm
      unfold leftOfColon at hlt
      simpa using Nat.succ_lt_succ hlt

lemma splitN2Colon_eq_of_contains (t : List Char) (h : listContains t ":".data = true) :
    splitN2Colon t = some (leftOfColon t, rightOfColon t) := by
  have hm : ':' ∈ t := mem_of_listContains_single ':' t h
  have hlt := leftOfColon_length_lt t hm
  have hne : (t.takeWhile (fun c => c ≠ ':')).length ≠ t.length := by
    unfold leftOfColon at hlt
    exact Nat.ne_of_lt hlt
  simp only [splitN2Colon]
  rw [if_neg hne]
  rfl

lemma findSubIdx_pos (l : List Char) (i : Nat)
    (hfind : findSubIdx (trimChars l) " key".data = some i) : 0 < i := by
  cases hk : trimChars l with
  | nil =>
    rw [hk] at hfind
    have hnone : findSubIdx [] " key".data = none := rfl
    rw [hnone] at hfind
    exact absurd hfind (by simp)
  | cons c cs =>
    have hc : isGoSpace c = false := trimChars_head_not_space l c cs hk
    rw [hk] at hfind
    by_cases hp : List.isPrefixOf " key".data (c :: cs) = true
    · exfalso
      have h3 : ((' ' == c) && List.isPrefixOf "key".data cs) = true := hp
      have h4 : (' ' == c) = true := ((Bool.and_eq_true ..).mp h3).1
      rw [← eq_of_beq h4] at hc
      exact absurd hc (by decide)
    · rw [Bool.not_eq_true] at hp
      rw [findSubIdx, hp] at hfind
      simp only [Bool.false_eq_true, if_false] at hfind
      cases hrec : findSubIdx cs " key".data with
      | none => rw [hrec] at hfind; exact absurd hfind (by simp)
      | some j =>
        rw [hrec] at hfind
        simp only [Option.map_some'] at hfind
        have := Option.some.inj hfind
        omega

lemma serialStep_keys (info : CardInfo) (t : List Char) :
    (serialStep info t).keys = info.keys := by
  simp only [serialStep]
  split_ifs <;> rfl

lemma cardholderStep_keys (info : CardInfo) (t : List Char) :
    (cardholderStep info t).keys = info.keys := by
  unfold cardholderStep
  split_ifs with h
  · cases hs : splitN2Colon t with
    | none => simp [hs]
    | some pr => cases pr with | mk l r => simp [hs]
  · rfl

/-- C6: for every card-status line containing both "key" and a colon (and
whose left-of-colon portion contains " key"), the per-line transition of
`parseCardStatus` derives the slot name as everything before the first
occurrence of " key" in the trimmed portion left of the first colon
(trimmed), the slot value as everything right of the first colon (trimmed),
and creates no entry when the value is literally "[none]" or empty. -/
theorem cardStatus_slot_line (info : CardInfo) (line : List Char) (i : Nat)
    (hkey : listContains (trimChars line) "key".data = true)
    (hcol : listContains (trimChars line) ":".data = true)
    (hfind : findSubIdx (trimChars (leftOfColon (trimChars line))) " key".data = some i) :
    (trimChars (rightOfColon (trimChars line)) ≠ "[none]".data ∧
        trimChars (rightOfColon (trimChars line)) ≠ [] →
      (cardStep info line).keys =
        (String.mk (trimChars ((trimChars (leftOfColon (trimChars line))).take i)),
         String.mk (trimChars (rightOfColon (trimChars line)))) :: info.keys) ∧
    ((trimChars (rightOfColon (trimChars line)) = "[none]".data ∨
        trimChars (rightOfColon (trimChars line)) = []) →
      (cardStep info line).keys = info.keys) := by
  have hpos : 0 < i := findSubIdx_pos (leftOfColon (trimChars line)) i hfind
  have htne : trimChars line ≠ [] := by
    intro h0
    rw [h0] at hcol
    exact absurd hcol (by decide)
  have hsplit := splitN2Colon_eq_of_contains (trimChars line) hcol
  have hcs : cardStep info line =
      slotStep (cardholderStep (serialStep info (trimChars line)) (trimChars line))
        (trimChars line) := by
    unfold cardStep
    rw [if_neg htne]
  have hkeys :
      (cardholderStep (serialStep info (trimChars line)) (trimChars line)).keys =
        info.keys := by
    rw [cardholderStep_keys, serialStep_keys]
  have hguard : (listContains (trimChars line) "key".data &&
      listContains (trimChars line) ":".data) = true := by
    rw [hkey, hcol]
    rfl
  constructor
  · intro hval
    rw [hcs]
    unfold slotStep
    rw [hguard, if_pos rfl, hsplit]
    simp only [hfind, if_pos hpos]
    rw [if_pos (by simp [hval.1, hval.2])]
    simp [hkeys]
  · intro hval
    rw [hcs]
    unfold slotStep
    rw [hguard, if_pos rfl, hsplit]
    simp only [hfind, if_pos hpos]
    rw [if_neg (by rcases hval with h | h <;> simp [h])]
    exact hkeys

/-- Witness for C6: the two example lines of the spec, with and without alignment
dots, both yield the entry ("Signature", "ABC123"); a "[none]" value creates
no entry. -/
theorem cardStatus_slot_line_witness :
    (cardStep emptyCardInfo ("Signature key.....: ABC123").data).keys =
      [("Signature", "ABC123")] ∧
    (cardStep emptyCardInfo ("Signature key: ABC123").data).keys =
      [("Signature", "ABC123")] ∧
    (cardStep emptyCardInfo ("Signature key.....: [none]").data).keys = [] := by
  have h1 := (cardStatus_slot_line emptyCardInfo ("Signature key.....: ABC123").data 9
    (by decide) (by decide) (by decide)).1 (by decide)
  have h2 := (cardStatus_slot_line emptyCardInfo ("Signature key: ABC123").data 9
    (by decide) (by decide) (by decide)).1 (by decide)
  have h3 := (cardStatus_slot_line emptyCardInfo ("Signature key.....: [none]").data 9
    (by decide) (by decide) (by decide)).2 (by decide)
  refine ⟨?_, ?_, ?_⟩
  · rw [h1]; decide
  · rw [h2]; decide
  · rw [h3]; rfl

/-! ## C8 — IsPresent conflates a timed-out status query with absence -/

/-- C8 counterexample: a card-status failure whose error text is a timeout
(context deadline exceeded) makes `IsPresent` return `(false, nil)` — exactly
the same "no token attached" outcome as a plain card-absent failure, not a
distinct inconclusive outcome. -/
theorem isPresent_timeout_reported_as_absent :
    isPresent
      { ykmanInfo := Except.error "exec: ykman: executable file not found"
        cardStatus := Except.error ("failed to get card status: command " ++
          "failed with exit code -1: context deadline exceeded") } = (false, none) ∧
    isPresent
      { ykmanInfo := Except.error "exec: ykman: executable file not found"
        cardStatus := Except.error "failed to get card status: no card present" } =
      (false, none) := by
  exact ⟨rfl, rfl⟩

/-- C8 amended: `IsPresent` returns the plain absent outcome `(false, nil)`
for every card-status failure whose error text contains neither of the two
recognized card-present markers — including a timed-out query — and returns
a non-nil actionable error only when one of the markers is present. -/
theorem isPresent_unrecognized_error_is_absent (st : YkState) (e : String)
    (hcs : st.cardStatus = Except.error e) :
    (strContains e "Operation not supported by device" = false →
      strContains e "OpenPGP card not available" = false →
      isPresent st = (false, none)) ∧
    ((strContains e "Operation not supported by device" = true ∨
        strContains e "OpenPGP card not available" = true) →
      ∃ msg, isPresent st = (false, some msg)) := by
  constructor
  · intro h1 h2
    simp only [isPresent, hcs]
    simp [h1, h2]
  · intro hor
    have hg : (strContains e "Operation not supported by device" ||
        strContains e "OpenPGP card not available") = true := by
      rcases hor with h | h <;> simp [h]
    simp only [isPresent, hcs, hg, if_true]
    split_ifs with hb <;> exact ⟨_, rfl⟩

/-- Witness for the amended statement of C8 at a timed-out query and at a
recognized card-present error. -/
theorem isPresent_unrecognized_error_is_absent_witness :
    isPresent
      { ykmanInfo := Except.error "exec: ykman: executable file not found"
        cardStatus := Except.error "failed to get card status: context deadline exceeded" } =
      (false, none) ∧
    (∃ msg, isPresent
      { ykmanInfo := Except.error "exec: ykman: executable file not found"
        cardStatus :=
          Except.error "failed to get card status: OpenPGP card not available" } =
      (false, some msg)) := by
  refine ⟨(isPresent_unrecognized_error_is_absent _
      "failed to get card status: context deadline exceeded" rfl).1
      (by decide) (by decide),
    (isPresent_unrecognized_error_is_absent _
      "failed to get card status: OpenPGP card not available" rfl).2
      (Or.inr (by decide))⟩

/-! ## C9 — SupportsOpenPGP on inconclusive signals -/

/-- C9 counterexample: when the inventory probe is inconclusive and the
status query fails with an unrecognized error, `SupportsOpenPGP` does return
a non-nil error, but that error names no manual diagnostic command (neither
"gpg --card-status" nor "ykman info" occurs in it). -/
theorem supportsOpenPGP_error_without_diagnostics :
    supportsOpenPGP
      { ykmanInfo := Except.error "exec: ykman: executable file not found"
        cardStatus := Except.error "failed to get card status: boom" } =
      (false, some "unable to check OpenPGP support: failed to get card status: boom") ∧
    strContains "unable to check OpenPGP support: failed to get card status: boom"
      "gpg --card-status" = false ∧
    strContains "unable to check OpenPGP support: failed to get card status: boom"
      "ykman info" = false := by
  exact ⟨rfl, by decide, by decide⟩

/-- C9 amended: whenever neither the ykman inventory probe nor the fallback
status query is decisive (probe inconclusive, query failed), the function
returns an explicit non-nil error rather than guessing `(true, nil)` or
`(false, nil)`; the error names the manual diagnostic commands
"gpg --card-status" and "ykman info" exactly when the failure text contains
"Operation not supported by device". -/
theorem supportsOpenPGP_inconclusive_never_guesses (st : YkState) (e : String)
    (hyk : ykmanProbe st = none)
    (hcs : st.cardStatus = Except.error e) :
    (∃ msg, supportsOpenPGP st = (false, some msg)) ∧
    (strContains e "Operation not supported by device" = true →
      ∃ msg, supportsOpenPGP st = (false, some msg) ∧
        strContains msg "gpg --card-status" = true ∧
        strContains msg "ykman info" = true) := by
  constructor
  · simp only [supportsOpenPGP, hyk, hcs]
    split_ifs with hb <;> exact ⟨_, rfl⟩
  · intro hop
    simp only [supportsOpenPGP, hyk, hcs, hop, if_true]
    exact ⟨_, rfl, by decide, by decide⟩

/-- Witness for the amended statement of C9: a YubiKey whose ykman output has no
OpenPGP line and whose status query fails with the recognized
"Operation not supported by device" text. -/
theorem supportsOpenPGP_inconclusive_never_guesses_witness :
    (∃ msg, supportsOpenPGP
      { ykmanInfo := Except.ok "Device type: Security Key C NFC"
        cardStatus := Except.error
          "failed to get card status: Operation not supported by device" } =
      (false, some msg)) ∧
    (∃ msg, supportsOpenPGP
      { ykmanInfo := Except.ok "Device type: Security Key C NFC"
        cardStatus := Except.error
          "failed to get card status: Operation not supported by device" } =
      (false, some msg) ∧
      strContains msg "gpg --card-status" = true ∧
      strContains msg "ykman info" = true) := by
  have h := supportsOpenPGP_inconclusive_never_guesses
    { ykmanInfo := Except.ok "Device type: Security Key C NFC"
      cardStatus := Except.error
        "failed to get card status: Operation not supported by device" }
    "failed to get card status: Operation not supported by device"
    (by decide) rfl
  exact ⟨h.1, h.2 (by decide)⟩

end YkMgr
